import Mathlib

/-!
# studiodir: Android Studio project skeleton generator

A shallow embedding of `main.go`: the path planner (`NewStudio`, `NewStudioWithBase`),
the directory helper `mkDirs`, and the emitter `Studio.mkDirs`, run against an
explicit operating-system interface that records every call it makes.

Go strings are modelled as lists of characters. Every byte the program inspects
(`.` and `/`) is ASCII, so indices and slices agree with the byte-level ones on
UTF-8 text.
-/

namespace StudioDir

/-- A Go `string`. -/
abbrev GoString := List Char

/-! ## Constants of `main.go` -/

def RAW_MANIFEST : GoString :=
  "<?xml version=\"1.0\" ?>\n".toList ++
  "<manifest xmlns:android=\"http://schemas.android.com/apk/res/android\"\n".toList ++
  "          package=\"\x7b\x7b.Pkg\x7d\x7d\">\n".toList ++
  "    <application android:allowBackup=\"true\"\n".toList ++
  "        >\n".toList ++
  "\n".toList ++
  "    </application>\n".toList ++
  "</manifest>\n".toList

def PLUGIN_LIBRARY : GoString := "com.android.library".toList

def PLUGIN_APPLICATION : GoString := "com.android.application".toList

def RAW_GRADLE_BUILD : GoString :=
  "\n".toList ++
  "apply plugin: \x27\x7b\x7b.Plugin\x7d\x7d\x27\n".toList ++
  "\n".toList ++
  "android\x7b\n".toList ++
  "\tcompileSdkVersion 22\n".toList ++
  "\tbuildToolsVersion \x2722.0.1\x27\n".toList ++
  "\n".toList ++
  "\tdefaultConfig\x7b\n".toList ++
  "\t\tminSdkVersion 8\n".toList ++
  "\t\ttargetSdkVersion 22\n".toList ++
  "\t\tversionCode 1\n".toList ++
  "\t\tversionName \x271.0\x27\n".toList ++
  "\t\x7d\n".toList ++
  "\n".toList ++
  "\tbuildTypes\x7b\n".toList ++
  "\t\tdebug\x7b\n".toList ++
  "\t\t\tminifyEnabled false\n".toList ++
  "\t\t\tproguardFiles getDefaultProguardFile(\x27proguard-android.txt\x27), \x27proguard-rules.pro\x27\n".toList ++
  "\t\t\x7d\n".toList ++
  "\t\x7d\n".toList ++
  "\n".toList ++
  "\x7d\n".toList ++
  "\n".toList ++
  "dependencies\x7b\n".toList ++
  "\tcompile \x27com.android.support:support-v4:22.2.0\x27\n".toList ++
  "\x7d\n".toList ++
  "\n".toList

def RAW_PROGUARD : GoString :=
  "# Add project specific ProGuard rules here.\n".toList ++
  "# By default, the flags in this file are appended to flags specified\n".toList ++
  "# in /home/zhou/opt/android-sdk/tools/proguard/proguard-android.txt\n".toList ++
  "# You can edit the include path and order by changing the proguardFiles\n".toList ++
  "# directive in build.gradle.\n".toList ++
  "#\n".toList ++
  "# For more details, see\n".toList ++
  "#   http://developer.android.com/guide/developing/tools/proguard.html\n".toList ++
  "\n".toList ++
  "# Add any project specific keep options here:\n".toList ++
  "\n".toList ++
  "# If your project uses WebView with JS, uncomment the following\n".toList ++
  "# and specify the fully qualified class name to the JavaScript interface\n".toList ++
  "# class:\n".toList ++
  "#-keepclassmembers class fqcn.of.javascript.interface.for.webview \x7b\n".toList ++
  "#   public *;\n".toList ++
  "#\x7d\n".toList

/-! ## Library functions used by `main.go` -/

/-- Scan of `strings.LastIndex`: `i` is the index of the head of the remaining
input, `last` the index of the latest match seen so far. -/
def lastIndexFrom (substr : GoString) : GoString → Nat → Int → Int
  | [], i, last => if substr.isPrefixOf [] then (i : Int) else last
  | c :: cs, i, last =>
    lastIndexFrom substr cs (i + 1) (if substr.isPrefixOf (c :: cs) then (i : Int) else last)

/-- Go `strings.LastIndex(s, substr)`: the index of the last instance of `substr`
in `s`, or `-1` if `substr` is not present in `s`. -/
def LastIndex (s substr : GoString) : Int :=
  lastIndexFrom substr s 0 (-1)

/-- A Go `error` value, by the constructor that made it. -/
inductive Error where
  /-- Made by `errors.New(text)`. -/
  | errorsNew (text : GoString)
  /-- Returned by a call into package `os`. -/
  | pathError (text : GoString)
  /-- Returned by `text/template` itself (not by the writer). -/
  | execError (text : GoString)
  deriving DecidableEq, Repr

/-- The `Error()` method. -/
def Error.message : Error → GoString
  | .errorsNew t => t
  | .pathError t => t
  | .execError t => t

/-! ### `text/template`, restricted to what the two templates use

Literal text and `{{.Field}}` actions. Any other action is reported as a parse
failure. -/

/-- A node of a parsed template. -/
inductive Node where
  | text (s : GoString)
  | field (name : GoString)
  deriving DecidableEq, Repr

/-- Space characters inside an action. -/
def isSpace (c : Char) : Bool :=
  c == ' ' || c == '\t' || c == '\r' || c == '\n'

/-- Characters of an identifier. -/
def isAlphaNumeric (c : Char) : Bool :=
  c == '_' || c.isAlpha || c.isDigit

/-- The text node for a run of literal text; empty text yields no node. -/
def textNode (revAcc : GoString) : List Node :=
  if revAcc.isEmpty then [] else [Node.text revAcc.reverse]

/-- The node for the inside of `{{ ... }}`, given in reverse. -/
def parseAction (revBody : GoString) : Option Node :=
  match ((revBody.dropWhile isSpace).reverse).dropWhile isSpace with
  | '.' :: name =>
    if !name.isEmpty && name.all isAlphaNumeric then some (Node.field name) else none
  | _ => none

/-- The lexer and parser in one pass. `inAction` tells whether the scan is inside
`{{ ... }}`; `revAcc` holds, in reverse, the characters of the current item. -/
def parseFrom : Bool → GoString → GoString → Option (List Node)
  | false, revAcc, [] => some (textNode revAcc)
  | true, _, [] => none
  | false, revAcc, '{' :: '{' :: rest =>
    (parseFrom true [] rest).map (fun nodes => textNode revAcc ++ nodes)
  | false, revAcc, c :: rest => parseFrom false (c :: revAcc) rest
  | true, revAcc, '}' :: '}' :: rest =>
    match parseAction revAcc with
    | some n => (parseFrom false [] rest).map (fun nodes => n :: nodes)
    | none => none
  | true, revAcc, c :: rest => parseFrom true (c :: revAcc) rest

/-- A `*template.Template`: its name and, once parsed, its tree. -/
structure Template where
  name : GoString
  Tree : Option (List Node)
  deriving DecidableEq, Repr

/-- Go `template.New(name)`. -/
def Template.New (name : GoString) : Template :=
  { name := name, Tree := none }

/-- Go `t.Parse(text)`: on success the receiver holds the tree, on failure it is
left as it was. -/
def Template.Parse (t : Template) (text : GoString) : Template × Option Error :=
  match parseFrom false [] text with
  | some nodes => ({ t with Tree := some nodes }, none)
  | none => (t, some (Error.execError ("template: ".toList ++ t.name ++ ": parse error".toList)))

/-- Indexing a `map[string]string`: a missing key gives the zero value. -/
def mapIndex (data : List (GoString × GoString)) (key : GoString) : GoString :=
  match data.find? (fun kv => kv.1 == key) with
  | some kv => kv.2
  | none => []

/-! ## The operating system, as the program sees it -/

/-- The four files `Studio.mkDirs` opens, named after its local variables. -/
inductive Artifact where
  | manifest
  | gradleBuild
  | gradleSettings
  | proguard
  deriving DecidableEq, Repr

/-- One observable action of a run. -/
inductive Event where
  | mkdirAll (path : GoString) (perm : Nat) (ok : Bool)
  | create (a : Artifact) (name : GoString) (ok : Bool)
  | write (a : Artifact) (data : GoString) (ok : Bool)
  | close (a : Artifact)
  | println (args : List GoString)
  deriving DecidableEq, Repr

/-- Package `os`, over an arbitrary state `σ` and handle type `H`. An error is
given by its text. -/
structure OS (σ H : Type) where
  MkdirAll : GoString → Nat → σ → Option GoString × σ
  Create : GoString → σ → Except GoString H × σ
  Write : H → GoString → σ → Option GoString × σ
  Close : H → σ → σ

/-- The state of a run: the operating system's state and the actions so far. -/
structure World (σ : Type) where
  fs : σ
  trace : List Event

/-- An `*os.File`, tagged with the local variable that holds it. -/
structure File (H : Type) where
  artifact : Artifact
  fd : H

variable {σ H : Type}

/-- Go `os.MkdirAll(path, perm)`. -/
def osMkdirAll (os : OS σ H) (path : GoString) (perm : Nat) (w : World σ) :
    Option Error × World σ :=
  match os.MkdirAll path perm w.fs with
  | (none, fs) => (none, { fs := fs, trace := w.trace ++ [Event.mkdirAll path perm true] })
  | (some e, fs) =>
    (some (Error.pathError e), { fs := fs, trace := w.trace ++ [Event.mkdirAll path perm false] })

/-- Go `os.Create(name)`. -/
def osCreate (os : OS σ H) (a : Artifact) (name : GoString) (w : World σ) :
    Except Error (File H) × World σ :=
  match os.Create name w.fs with
  | (Except.ok fd, fs) =>
    (Except.ok { artifact := a, fd := fd },
      { fs := fs, trace := w.trace ++ [Event.create a name true] })
  | (Except.error e, fs) =>
    (Except.error (Error.pathError e),
      { fs := fs, trace := w.trace ++ [Event.create a name false] })

/-- Go `f.Write(data)`, also reached through `fmt.Fprint` and `f.WriteString`. -/
def File.Write (os : OS σ H) (f : File H) (data : GoString) (w : World σ) :
    Option Error × World σ :=
  match os.Write f.fd data w.fs with
  | (none, fs) => (none, { fs := fs, trace := w.trace ++ [Event.write f.artifact data true] })
  | (some e, fs) =>
    (some (Error.pathError e),
      { fs := fs, trace := w.trace ++ [Event.write f.artifact data false] })

/-- Go `f.Close()`. -/
def File.Close (os : OS σ H) (f : File H) (w : World σ) : World σ :=
  { fs := os.Close f.fd w.fs, trace := w.trace ++ [Event.close f.artifact] }

/-- Go `fmt.Println(args...)`. -/
def Println (args : List GoString) (w : World σ) : World σ :=
  { w with trace := w.trace ++ [Event.println args] }

/-- The deferred calls of a function, run last-in first-out when it returns.
`deferred` lists them in the order the `defer` statements ran. -/
def runDeferred (os : OS σ H) (deferred : List (File H)) (w : World σ) : World σ :=
  deferred.foldr (fun f acc => File.Close os f acc) w

/-- Walk of a template tree: each node is written to `wr` as it is reached, and
the first failed write ends the walk. -/
def walk (os : OS σ H) (wr : File H) (data : List (GoString × GoString)) :
    List Node → World σ → Option Error × World σ
  | [], w => (none, w)
  | Node.text s :: rest, w =>
    match File.Write os wr s w with
    | (some e, w1) => (some e, w1)
    | (none, w1) => walk os wr data rest w1
  | Node.field name :: rest, w =>
    match File.Write os wr (mapIndex data name) w with
    | (some e, w1) => (some e, w1)
    | (none, w1) => walk os wr data rest w1

/-- Go `t.Execute(wr, data)`. -/
def Template.Execute (os : OS σ H) (t : Template) (wr : File H)
    (data : List (GoString × GoString)) (w : World σ) : Option Error × World σ :=
  match t.Tree with
  | none =>
    (some (Error.execError
      ("template: ".toList ++ t.name ++ ": incomplete or empty template".toList)), w)
  | some nodes => walk os wr data nodes w

/-! ## The program -/

/-- The file structure of a Studio project. -/
structure Studio where
  Libs : GoString
  Src : GoString
  Test : GoString
  Assets : GoString
  JniLibs : GoString
  Res : GoString
  Manifest : GoString
  GradleBuild : GoString
  GradleSetting : GoString
  Proguard : GoString
  Pkg : GoString
  IsApp : Bool
  deriving DecidableEq, Repr

def NewStudio : Studio :=
  { Libs := "libs".toList
    Src := "src/main/java".toList
    Test := "src/androidTest/java".toList
    Assets := "src/main/assets".toList
    JniLibs := "src/main/jniLibs".toList
    Res := "src/main/res".toList
    Manifest := "src/main/AndroidManifest.xml".toList
    GradleBuild := "build.gradle".toList
    GradleSetting := "settings.gradle".toList
    Proguard := "proguard-rules.pro".toList
    Pkg := []
    IsApp := false }

def NewStudioWithBase (base : GoString) : Studio :=
  if base ≠ [] then
    { Libs := base ++ "/libs".toList
      Src := base ++ "/src/main/java".toList
      Test := base ++ "/src/androidTest/java".toList
      Assets := base ++ "/src/main/assets".toList
      JniLibs := base ++ "/src/main/jniLibs".toList
      Res := base ++ "/src/main/res".toList
      Manifest := base ++ "/src/main/AndroidManifest.xml".toList
      GradleBuild := base ++ "/build.gradle".toList
      GradleSetting := base ++ "/settings.gradle".toList
      Proguard := base ++ "/proguard-rules.pro".toList
      Pkg := []
      IsApp := false }
  else
    NewStudio

/-- The text of the error `mkDirs` makes with `errors.New`. -/
def missingParentText (path : GoString) : GoString :=
  "no found folder in path, may only a file in root.".toList ++ path

/-- Only creates directories; the source comment reads: if there is an extension,
only the parent directory is created. -/
def mkDirs (os : OS σ H) (path : GoString) (w : World σ) : Option Error × World σ :=
  let dot := LastIndex path ".".toList
  if dot > -1 then
    let d := LastIndex path "/".toList
    if d = -1 then
      (some (Error.errorsNew (missingParentText path)), w)
    else
      let parent := path.take d.toNat
      osMkdirAll os parent 0o775 w
  else
    osMkdirAll os (path ++ "/".toList) 0o775 w

/-- Generates the directory structure and the four files. -/
def Studio.mkDirs (os : OS σ H) (s : Studio) (w : World σ) : World σ :=
  let w := (StudioDir.mkDirs os s.Libs w).2
  let w := (StudioDir.mkDirs os s.Src w).2
  let w := (StudioDir.mkDirs os s.Test w).2
  let w := (StudioDir.mkDirs os s.Assets w).2
  let w := (StudioDir.mkDirs os s.JniLibs w).2
  let w := (StudioDir.mkDirs os s.Res w).2
  let templ := Template.New "manifest".toList
  let templ := (templ.Parse RAW_MANIFEST).1
  match osCreate os Artifact.manifest s.Manifest w with
  | (Except.error err, w) => Println ["open manifest file error".toList, err.message] w
  | (Except.ok manifest, w) =>
    let deferred := [manifest]
    let w :=
      if s.Pkg ≠ [] then Println ["Package name is".toList, s.Pkg] w
      else Println ["Warning! use a blank package name".toList] w
    match templ.Execute os manifest [("Pkg".toList, s.Pkg)] w with
    | (some err, w) =>
      runDeferred os deferred
        (Println ["writer manifest file by template error".toList, err.message] w)
    | (none, w) =>
      let templ := Template.New "gradle".toList
      let templ := (templ.Parse RAW_GRADLE_BUILD).1
      match osCreate os Artifact.gradleBuild s.GradleBuild w with
      | (Except.error err, w) =>
        runDeferred os deferred
          (Println ["open build.gradle file error".toList, err.message] w)
      | (Except.ok gradleBuild, w) =>
        let deferred := deferred ++ [gradleBuild]
        let plugin := if s.IsApp then PLUGIN_APPLICATION else PLUGIN_LIBRARY
        let w := Println ["use gradle plugin".toList, plugin] w
        match templ.Execute os gradleBuild [("Plugin".toList, plugin)] w with
        | (some err, w) =>
          runDeferred os deferred (Println ["writer build.gradle fail.".toList, err.message] w)
        | (none, w) =>
          match osCreate os Artifact.gradleSettings s.GradleSetting w with
          | (Except.error _, w) =>
            runDeferred os deferred (Println ["open settings.gradle fail".toList] w)
          | (Except.ok gradleSettings, w) =>
            let deferred := deferred ++ [gradleSettings]
            let w := (File.Write os gradleSettings "\n".toList w).2
            match osCreate os Artifact.proguard s.Proguard w with
            | (Except.error err, w) =>
              runDeferred os deferred (Println ["open proguard error.".toList, err.message] w)
            | (Except.ok proguard, w) =>
              let deferred := deferred ++ [proguard]
              let w := (File.Write os proguard RAW_PROGUARD w).2
              runDeferred os deferred w

/-- The body of `main` after flag parsing: `pkg` and `isApp` are the values of
`-p` and `-app`, `baseDir` is `flag.Arg(0)` (empty when absent). -/
def main (os : OS σ H) (pkg : GoString) (isApp : Bool) (baseDir : GoString)
    (w : World σ) : World σ :=
  let studio := NewStudioWithBase baseDir
  let studio := { studio with Pkg := pkg, IsApp := isApp }
  studio.mkDirs os w

/-! ## A concrete file system

A tree of directories and regular files below the directory that names are
resolved from. Names are split at `/`; empty components and `.` are skipped.
There are no permissions, links or `..` components in this model: a name with a
`..` component is rejected. -/

/-- What a name denotes. -/
inductive FNode where
  | dir
  | file (content : GoString)
  deriving DecidableEq, Repr

/-- The file system: resolved names (lists of components) with what they denote.
The empty list, the starting directory, always is a directory. -/
abbrev FS := List (List GoString × FNode)

/-- Splits `path` at `/`. -/
def splitSlash : GoString → List GoString
  | [] => [[]]
  | c :: cs =>
    if c == '/' then [] :: splitSlash cs
    else
      match splitSlash cs with
      | [] => [[c]]
      | seg :: segs => (c :: seg) :: segs

/-- The components of `path`, or `none` when one of them is `..`. -/
def components (path : GoString) : Option (List GoString) :=
  let segs := (splitSlash path).filter (fun seg => !seg.isEmpty && seg != ".".toList)
  if segs.contains "..".toList then none else some segs

def FS.lookup (fs : FS) (name : List GoString) : Option FNode :=
  if name.isEmpty then some FNode.dir
  else (fs.find? (fun e => e.1 == name)).map (fun e => e.2)

def FS.set (fs : FS) (name : List GoString) (n : FNode) : FS :=
  (name, n) :: fs.filter (fun e => e.1 != name)

/-- Makes the directories `pre ++ [c₁]`, `pre ++ [c₁, c₂]`, ... in turn. -/
def FS.mkdirFrom (fs : FS) (pre : List GoString) : List GoString → Option GoString × FS
  | [] => (none, fs)
  | c :: cs =>
    match fs.lookup (pre ++ [c]) with
    | some FNode.dir => FS.mkdirFrom fs (pre ++ [c]) cs
    | some (FNode.file _) => (some "not a directory".toList, fs)
    | none => FS.mkdirFrom (fs.set (pre ++ [c]) FNode.dir) (pre ++ [c]) cs

def FS.MkdirAll (path : GoString) (_perm : Nat) (fs : FS) : Option GoString × FS :=
  match components path with
  | none => (some "unsupported name".toList, fs)
  | some cs => FS.mkdirFrom fs [] cs

def FS.Create (path : GoString) (fs : FS) : Except GoString (List GoString) × FS :=
  match components path with
  | none => (Except.error "unsupported name".toList, fs)
  | some cs =>
    if cs.isEmpty || path.getLast? == some '/' then
      (Except.error "is a directory".toList, fs)
    else
      match fs.lookup cs.dropLast, fs.lookup cs with
      | some FNode.dir, some FNode.dir => (Except.error "is a directory".toList, fs)
      | some FNode.dir, _ => (Except.ok cs, fs.set cs (FNode.file []))
      | some (FNode.file _), _ => (Except.error "not a directory".toList, fs)
      | none, _ => (Except.error "no such file or directory".toList, fs)

def FS.Write (fd : List GoString) (data : GoString) (fs : FS) : Option GoString × FS :=
  match fs.lookup fd with
  | some (FNode.file content) => (none, fs.set fd (FNode.file (content ++ data)))
  | _ => (some "bad file descriptor".toList, fs)

/-- The concrete file system as an instance of the interface. -/
def fsOS : OS FS (List GoString) :=
  { MkdirAll := FS.MkdirAll
    Create := FS.Create
    Write := FS.Write
    Close := fun _ fs => fs }

/-- Whether `path` names a directory. -/
def FS.isDir (fs : FS) (path : GoString) : Bool :=
  match components path with
  | some cs => fs.lookup cs == some FNode.dir
  | none => false

/-- The content of the regular file `path`, if there is one. -/
def FS.readFile (fs : FS) (path : GoString) : Option GoString :=
  match components path with
  | some cs =>
    match fs.lookup cs with
    | some (FNode.file content) => some content
    | _ => none
  | none => none

/-- A run starts with no actions recorded. -/
def World.init (fs : σ) : World σ :=
  { fs := fs, trace := [] }

/-! ## Notions the specification uses -/

/-- Following the specification: `base + "/" + suffix` when `base` is non-empty,
otherwise `suffix` alone. -/
def joinBase (base suffix : GoString) : GoString :=
  if base = [] then suffix else base ++ "/".toList ++ suffix

/-- The last segment of a path: the text after the final `/`, or the whole path
when it has no `/`. -/
def lastSegment (path : GoString) : GoString :=
  (splitSlash path).getLastD []

/-! ## Reading a trace -/

/-- The text the successful writes of a run put into the file held by `a`. -/
def written (a : Artifact) : List Event → GoString
  | [] => []
  | Event.write b data true :: t => if b = a then data ++ written a t else written a t
  | _ :: t => written a t

/-- A request to make a directory. -/
def Event.isMkdirAll : Event → Bool
  | Event.mkdirAll _ _ _ => true
  | _ => false

/-- An attempt on an artifact file: creating it or writing to it. -/
def Event.isAttempt : Event → Bool
  | Event.create _ _ _ => true
  | Event.write _ _ _ => true
  | _ => false

/-- A failure `Studio.mkDirs` checks for: a file that cannot be created, or a
failed write while a template is rendered. -/
def Event.isFatal : Event → Bool
  | Event.create _ _ false => true
  | Event.write Artifact.manifest _ false => true
  | Event.write Artifact.gradleBuild _ false => true
  | _ => false

def Event.isClose : Event → Bool
  | Event.close _ => true
  | _ => false

/-- The files a trace opens with success, in order. -/
def opened : List Event → List Artifact
  | [] => []
  | Event.create a _ true :: t => a :: opened t
  | _ :: t => opened t

/-- The files open after the actions of a trace. -/
def openAfter (t : List Event) : List Artifact :=
  t.foldl (fun acc e =>
    match e with
    | Event.create a _ true => acc ++ [a]
    | Event.close a => acc.erase a
    | _ => acc) []

/-- Every failure the program checks for is followed by no attempt on a file. -/
def fatalIsLast : List Event → Bool
  | [] => true
  | e :: t => (!e.isFatal || !t.any Event.isAttempt) && fatalIsLast t

/-- The first operand of the `fmt.Println` that reports a failure: by the file and
by whether creating it or writing to it failed. -/
def failureReport : Event → GoString
  | Event.create Artifact.manifest _ _ => "open manifest file error".toList
  | Event.create Artifact.gradleBuild _ _ => "open build.gradle file error".toList
  | Event.create Artifact.gradleSettings _ _ => "open settings.gradle fail".toList
  | Event.create Artifact.proguard _ _ => "open proguard error.".toList
  | Event.write Artifact.manifest _ _ => "writer manifest file by template error".toList
  | Event.write Artifact.gradleBuild _ _ => "writer build.gradle fail.".toList
  | _ => []

/-- The trace is one `fmt.Println` whose first operand is `m`, then closes only. -/
def isReportThenCloses (m : GoString) : List Event → Bool
  | Event.println (x :: _) :: closes => x == m && closes.all Event.isClose
  | _ => false

/-- Every failure the program checks for is followed by its report and then by
closes only. -/
def reportFollows : List Event → Bool
  | [] => true
  | e :: t => (!e.isFatal || isReportThenCloses (failureReport e) t) && reportFollows t

/-- Following the specification's "placeholder replaced by": every occurrence of
`old` in the text, left to right, is replaced by `new`. `skip` counts the
characters of a match still to pass over. -/
def replaceAll (old new : GoString) : Nat → GoString → GoString
  | _, [] => []
  | skip + 1, _ :: cs => replaceAll old new skip cs
  | 0, c :: cs =>
    if !old.isEmpty && old.isPrefixOf (c :: cs) then new ++ replaceAll old new (old.length - 1) cs
    else c :: replaceAll old new 0 cs

/-! ## The ways a run of `Studio.mkDirs` can go -/

/-- The text of `RAW_MANIFEST` before the placeholder. -/
def manifestHead : GoString := RAW_MANIFEST.take 111

/-- The text of `RAW_MANIFEST` after the placeholder. -/
def manifestTail : GoString := RAW_MANIFEST.drop 119

/-- The text of `RAW_GRADLE_BUILD` before the placeholder. -/
def gradleHead : GoString := RAW_GRADLE_BUILD.take 16

/-- The text of `RAW_GRADLE_BUILD` after the placeholder. -/
def gradleTail : GoString := RAW_GRADLE_BUILD.drop 27

/-- The plugin `Studio.mkDirs` chooses. -/
def pluginOf (s : Studio) : GoString :=
  if s.IsApp then PLUGIN_APPLICATION else PLUGIN_LIBRARY

/-- The pieces the manifest template writes, in order. -/
def manifestChunks (s : Studio) : List GoString :=
  [manifestHead, s.Pkg, manifestTail]

/-- The pieces the build.gradle template writes, in order. -/
def gradleChunks (s : Studio) : List GoString :=
  [gradleHead, pluginOf s, gradleTail]

/-- How a run ends. `k` is the number of writes that succeeded before the failed one. -/
inductive Outcome where
  | manifestCreateFailed (err : GoString)
  | manifestRenderFailed (k : Fin 3) (err : GoString)
  | gradleCreateFailed (err : GoString)
  | gradleRenderFailed (k : Fin 3) (err : GoString)
  | settingsCreateFailed
  | proguardCreateFailed (settingsWritten : Bool) (err : GoString)
  | done (settingsWritten proguardWritten : Bool)

/-- The writes of a template whose `k`-th write (counting from 0) fails. -/
def renderFail (a : Artifact) (chunks : List GoString) (k : Nat) : List Event :=
  (chunks.take k).map (fun d => Event.write a d true) ++ [Event.write a (chunks.getD k []) false]

/-- The writes of a template that renders. -/
def renderOk (a : Artifact) (chunks : List GoString) : List Event :=
  chunks.map (fun d => Event.write a d true)

/-- The line printed about the package name. -/
def pkgLine (s : Studio) : Event :=
  if s.Pkg ≠ [] then Event.println ["Package name is".toList, s.Pkg]
  else Event.println ["Warning! use a blank package name".toList]

/-- The actions up to and including a rendered manifest. -/
def manifestDone (s : Studio) : List Event :=
  [Event.create Artifact.manifest s.Manifest true, pkgLine s]
    ++ renderOk Artifact.manifest (manifestChunks s)

/-- The actions up to and including a rendered build.gradle. -/
def gradleDone (s : Studio) : List Event :=
  manifestDone s
    ++ [Event.create Artifact.gradleBuild s.GradleBuild true,
        Event.println ["use gradle plugin".toList, pluginOf s]]
    ++ renderOk Artifact.gradleBuild (gradleChunks s)

/-- The actions up to and including the write to settings.gradle. -/
def settingsDone (s : Studio) (settingsWritten : Bool) : List Event :=
  gradleDone s
    ++ [Event.create Artifact.gradleSettings s.GradleSetting true,
        Event.write Artifact.gradleSettings "\n".toList settingsWritten]

/-- The actions of a run after the six directory requests, by outcome. -/
def fileEvents (s : Studio) : Outcome → List Event
  | Outcome.manifestCreateFailed err =>
    [Event.create Artifact.manifest s.Manifest false,
     Event.println ["open manifest file error".toList, err]]
  | Outcome.manifestRenderFailed k err =>
    [Event.create Artifact.manifest s.Manifest true, pkgLine s]
      ++ renderFail Artifact.manifest (manifestChunks s) k
      ++ [Event.println ["writer manifest file by template error".toList, err],
          Event.close Artifact.manifest]
  | Outcome.gradleCreateFailed err =>
    manifestDone s
      ++ [Event.create Artifact.gradleBuild s.GradleBuild false,
          Event.println ["open build.gradle file error".toList, err],
          Event.close Artifact.manifest]
  | Outcome.gradleRenderFailed k err =>
    manifestDone s
      ++ [Event.create Artifact.gradleBuild s.GradleBuild true,
          Event.println ["use gradle plugin".toList, pluginOf s]]
      ++ renderFail Artifact.gradleBuild (gradleChunks s) k
      ++ [Event.println ["writer build.gradle fail.".toList, err],
          Event.close Artifact.gradleBuild, Event.close Artifact.manifest]
  | Outcome.settingsCreateFailed =>
    gradleDone s
      ++ [Event.create Artifact.gradleSettings s.GradleSetting false,
          Event.println ["open settings.gradle fail".toList],
          Event.close Artifact.gradleBuild, Event.close Artifact.manifest]
  | Outcome.proguardCreateFailed settingsWritten err =>
    settingsDone s settingsWritten
      ++ [Event.create Artifact.proguard s.Proguard false,
          Event.println ["open proguard error.".toList, err],
          Event.close Artifact.gradleSettings, Event.close Artifact.gradleBuild,
          Event.close Artifact.manifest]
  | Outcome.done settingsWritten proguardWritten =>
    settingsDone s settingsWritten
      ++ [Event.create Artifact.proguard s.Proguard true,
          Event.write Artifact.proguard RAW_PROGUARD proguardWritten,
          Event.close Artifact.proguard, Event.close Artifact.gradleSettings,
          Event.close Artifact.gradleBuild, Event.close Artifact.manifest]

/-- Whether the trace creates the file held by `a` with success. -/
def createdOk (a : Artifact) (t : List Event) : Bool :=
  t.any (fun e =>
    match e with
    | Event.create b _ true => b == a
    | _ => false)

/-- Whether a write to the file held by `a` fails in the trace. -/
def failedWrite (a : Artifact) (t : List Event) : Bool :=
  t.any (fun e =>
    match e with
    | Event.write b _ false => b == a
    | _ => false)

/-- Whether the trace tries to create the file held by `a`. -/
def attempted (a : Artifact) (t : List Event) : Bool :=
  t.any (fun e =>
    match e with
    | Event.create b _ _ => b == a
    | _ => false)

/-! ## Concrete runs -/

/-- The layout under `myproj` with package `com.example.app`, a library. -/
def libraryStudio : Studio :=
  { NewStudioWithBase "myproj".toList with Pkg := "com.example.app".toList, IsApp := false }

/-- The layout in the working directory with an empty package name, an application. -/
def appStudio : Studio :=
  { NewStudioWithBase [] with Pkg := [], IsApp := true }

/-- A file system where `src/main/AndroidManifest.xml` is a directory. -/
def manifestIsDirFS : FS :=
  (FS.MkdirAll "src/main/AndroidManifest.xml".toList 0o775 []).2

/-- The run of the specification's scenario: base `myproj`, package `com.test`,
library, on the empty file system. -/
def scenarioRun : World FS :=
  main fsOS "com.test".toList false "myproj".toList (World.init [])

/-- The same run with base `my.proj`. -/
def dottedBaseRun : World FS :=
  main fsOS "com.test".toList false "my.proj".toList (World.init [])

/-- The run in the working directory when the manifest cannot be created. -/
def blockedManifestRun : World FS :=
  main fsOS "com.test".toList false [] (World.init manifestIsDirFS)

/-! # Theorems -/

set_option maxRecDepth 100000

/-! ## `strings.LastIndex` with a one-character pattern -/

theorem lastIndexFrom_not_mem (c : Char) (s : GoString) (i : Nat) (last : Int)
    (h : c ∉ s) : lastIndexFrom [c] s i last = last := by
  induction s generalizing i last with
  | nil => simp [lastIndexFrom, List.isPrefixOf]
  | cons x xs ih =>
    have hx : c ≠ x := fun e => h (by simp [e])
    have hxs : c ∉ xs := fun e => h (by simp [e])
    simp [lastIndexFrom, List.isPrefixOf, hx, ih _ _ hxs]

theorem lastIndexFrom_split (c : Char) (pre seg : GoString) (i : Nat) (last : Int)
    (h : c ∉ seg) : lastIndexFrom [c] (pre ++ c :: seg) i last = ((i + pre.length : Nat) : Int) := by
  induction pre generalizing i last with
  | nil => simp [lastIndexFrom, List.isPrefixOf, lastIndexFrom_not_mem c seg _ _ h]
  | cons x xs ih =>
    show lastIndexFrom [c] (xs ++ c :: seg) (i + 1) _ = _
    rw [ih, List.length_cons]
    congr 1
    omega

theorem LastIndex_not_mem (c : Char) (s : GoString) (h : c ∉ s) : LastIndex s [c] = -1 :=
  lastIndexFrom_not_mem c s 0 (-1) h

theorem LastIndex_split (c : Char) (pre seg : GoString) (h : c ∉ seg) :
    LastIndex (pre ++ c :: seg) [c] = (pre.length : Int) := by
  simp [LastIndex, lastIndexFrom_split c pre seg 0 (-1) h]

/-- Every list holding `c` splits at the last `c`. -/
theorem exists_last_split (c : Char) (s : GoString) (h : c ∈ s) :
    ∃ pre seg, s = pre ++ c :: seg ∧ c ∉ seg := by
  induction s with
  | nil => simp at h
  | cons x xs ih =>
    by_cases hxs : c ∈ xs
    · obtain ⟨pre, seg, e, hs⟩ := ih hxs
      exact ⟨x :: pre, seg, by simp [e], hs⟩
    · have hx : c = x := by
        rcases List.mem_cons.mp h with e | e
        · exact e
        · exact absurd e hxs
      exact ⟨[], xs, by simp [hx], hxs⟩

theorem LastIndex_mem (c : Char) (s : GoString) (h : c ∈ s) : LastIndex s [c] > -1 := by
  obtain ⟨pre, seg, e, hs⟩ := exists_last_split c s h
  rw [e, LastIndex_split c pre seg hs]
  omega

/-! ## The path planner -/

/-- C2: each of the ten path fields of `NewStudioWithBase B` is `B + "/" + suffix`
when `B` is non-empty and the suffix alone when `B` is empty. -/
theorem NewStudioWithBase_paths (B : GoString) :
    (NewStudioWithBase B).Libs = joinBase B "libs".toList ∧
    (NewStudioWithBase B).Src = joinBase B "src/main/java".toList ∧
    (NewStudioWithBase B).Test = joinBase B "src/androidTest/java".toList ∧
    (NewStudioWithBase B).Assets = joinBase B "src/main/assets".toList ∧
    (NewStudioWithBase B).JniLibs = joinBase B "src/main/jniLibs".toList ∧
    (NewStudioWithBase B).Res = joinBase B "src/main/res".toList ∧
    (NewStudioWithBase B).Manifest = joinBase B "src/main/AndroidManifest.xml".toList ∧
    (NewStudioWithBase B).GradleBuild = joinBase B "build.gradle".toList ∧
    (NewStudioWithBase B).GradleSetting = joinBase B "settings.gradle".toList ∧
    (NewStudioWithBase B).Proguard = joinBase B "proguard-rules.pro".toList := by
  by_cases hB : B = []
  · subst hB
    refine ⟨rfl, rfl, rfl, rfl, rfl, rfl, rfl, rfl, rfl, rfl⟩
  · simp only [NewStudioWithBase, joinBase, hB, ne_eq, not_false_eq_true, if_true, if_false,
      List.append_assoc]
    refine ⟨rfl, rfl, rfl, rfl, rfl, rfl, rfl, rfl, rfl, rfl⟩

/-! ## The directory helper `mkDirs` -/

/-- A path without any `.` is created whole, with a trailing `/`. -/
theorem mkDirs_no_dot (os : OS σ H) (w : World σ) (path : GoString) (h : '.' ∉ path) :
    mkDirs os path w = osMkdirAll os (path ++ "/".toList) 0o775 w := by
  have hdot : LastIndex path ['.'] = -1 := LastIndex_not_mem '.' path h
  simp [mkDirs, hdot]

/-- A path with a `.` somewhere and a `/` somewhere has only the part before its
last `/` created. -/
theorem mkDirs_dot_slash (os : OS σ H) (w : World σ) (parent seg : GoString)
    (hslash : '/' ∉ seg) (hdot : '.' ∈ parent ++ '/' :: seg) :
    mkDirs os (parent ++ '/' :: seg) w = osMkdirAll os parent 0o775 w := by
  have h1 : -1 < LastIndex (parent ++ '/' :: seg) ['.'] := LastIndex_mem '.' _ hdot
  have h2 : LastIndex (parent ++ '/' :: seg) ['/'] = (parent.length : Int) :=
    LastIndex_split '/' parent seg hslash
  have h3 : ¬ ((parent.length : Int) = -1) := by omega
  simp [mkDirs, h1, h2, h3]

/-- The trace of one `os.MkdirAll` call is the one request. -/
theorem osMkdirAll_trace (os : OS σ H) (w : World σ) (path : GoString) (perm : Nat) :
    ∃ ok, (osMkdirAll os path perm w).2.trace = w.trace ++ [Event.mkdirAll path perm ok] := by
  unfold osMkdirAll
  split
  · exact ⟨true, rfl⟩
  · exact ⟨false, rfl⟩

/-- C3, at the input `a.b/libs`: the last segment `libs` has no `.`, yet `mkDirs`
requests the directory `a.b` only, and `a.b/libs` is not a directory afterwards. -/
theorem mkDirs_dotted_parent_skips_directory :
    '.' ∉ lastSegment "a.b/libs".toList ∧
    (mkDirs fsOS "a.b/libs".toList (World.init [])).2.trace
      = [Event.mkdirAll "a.b".toList 0o775 true] ∧
    (mkDirs fsOS "a.b/libs".toList (World.init [])).2.fs.isDir "a.b/libs".toList = false ∧
    (mkDirs fsOS "a.b/libs".toList (World.init [])).2.fs.isDir "a.b".toList = true := by
  refine ⟨by decide, by decide, by decide, by decide⟩

/-- C4: for a path whose last segment `seg` holds a `.` and that has a `/`, so that
it reads `parent/seg`, `mkDirs` makes exactly one request, `os.MkdirAll(parent, 0775)`,
and returns its result; nothing is requested at the path itself. -/
theorem mkDirs_file_path_makes_parent (os : OS σ H) (w : World σ) (parent seg : GoString)
    (hslash : '/' ∉ seg) (hdot : '.' ∈ seg) :
    mkDirs os (parent ++ '/' :: seg) w = osMkdirAll os parent 0o775 w ∧
    (mkDirs os (parent ++ '/' :: seg) w).2.fs = (os.MkdirAll parent 0o775 w.fs).2 ∧
    (∃ ok, (mkDirs os (parent ++ '/' :: seg) w).2.trace
      = w.trace ++ [Event.mkdirAll parent 0o775 ok]) ∧
    parent ≠ parent ++ '/' :: seg := by
  have e := mkDirs_dot_slash os w parent seg hslash (by simp [hdot])
  refine ⟨e, ?_, ?_, ?_⟩
  · rw [e]; unfold osMkdirAll; split <;> simp_all
  · rw [e]; exact osMkdirAll_trace os w parent 0o775
  · intro h
    have := congrArg List.length h
    simp at this

/-- The path `src/main/AndroidManifest.xml` on the empty file system: only `src/main`
is requested. -/
theorem mkDirs_file_path_makes_parent_witness :
    mkDirs fsOS ("src/main".toList ++ '/' :: "AndroidManifest.xml".toList) (World.init [])
      = osMkdirAll fsOS "src/main".toList 0o775 (World.init []) ∧
    (mkDirs fsOS ("src/main".toList ++ '/' :: "AndroidManifest.xml".toList) (World.init [])).2.fs
      = (fsOS.MkdirAll "src/main".toList 0o775 (World.init ([] : FS)).fs).2 ∧
    (∃ ok, (mkDirs fsOS ("src/main".toList ++ '/' :: "AndroidManifest.xml".toList)
        (World.init [])).2.trace
      = (World.init ([] : FS)).trace ++ [Event.mkdirAll "src/main".toList 0o775 ok]) ∧
    "src/main".toList ≠ "src/main".toList ++ '/' :: "AndroidManifest.xml".toList :=
  mkDirs_file_path_makes_parent fsOS (World.init []) "src/main".toList
    "AndroidManifest.xml".toList (by decide) (by decide)

/-- C5: for a path with a `.` and no `/` at all, `mkDirs` returns the error made by
`errors.New` and leaves the world as it was: no call into `os`, no action recorded. -/
theorem mkDirs_bare_file_missing_parent (os : OS σ H) (w : World σ) (path : GoString)
    (hslash : '/' ∉ path) (hdot : '.' ∈ path) :
    mkDirs os path w = (some (Error.errorsNew (missingParentText path)), w) := by
  have h1 : -1 < LastIndex path ['.'] := LastIndex_mem '.' path hdot
  have h2 : LastIndex path ['/'] = -1 := LastIndex_not_mem '/' path hslash
  simp [mkDirs, h1, h2]

/-- The bare file name `build.gradle` on the empty file system. -/
theorem mkDirs_bare_file_missing_parent_witness :
    mkDirs fsOS "build.gradle".toList (World.init [])
      = (some (Error.errorsNew (missingParentText "build.gradle".toList)), World.init []) :=
  mkDirs_bare_file_missing_parent fsOS (World.init []) "build.gradle".toList
    (by decide) (by decide)

/-- The error of `os.MkdirAll` is never one made by `errors.New`. -/
theorem osMkdirAll_err (os : OS σ H) (w : World σ) (path : GoString) (perm : Nat)
    (t : GoString) : (osMkdirAll os path perm w).1 ≠ some (Error.errorsNew t) := by
  unfold osMkdirAll
  split <;> simp

/-- A path that has a `/` or has no `.` never yields the error made by `errors.New`. -/
theorem mkDirs_err (os : OS σ H) (w : World σ) (path : GoString)
    (h : '/' ∈ path ∨ '.' ∉ path) (t : GoString) :
    (mkDirs os path w).1 ≠ some (Error.errorsNew t) := by
  by_cases hdot : '.' ∈ path
  · have hs : '/' ∈ path := h.resolve_right (not_not.mpr hdot)
    obtain ⟨parent, seg, e, hseg⟩ := exists_last_split '/' path hs
    subst e
    rw [mkDirs_dot_slash os w parent seg hseg hdot]
    exact osMkdirAll_err os w _ _ t
  · rw [mkDirs_no_dot os w path hdot]
    exact osMkdirAll_err os w _ _ t

/-- Each of the six directory paths of a planned layout has a `/` or has no `.`. -/
theorem NewStudioWithBase_dirs (B : GoString) :
    ∀ p ∈ [(NewStudioWithBase B).Libs, (NewStudioWithBase B).Src, (NewStudioWithBase B).Test,
        (NewStudioWithBase B).Assets, (NewStudioWithBase B).JniLibs, (NewStudioWithBase B).Res],
      '/' ∈ p ∨ '.' ∉ p := by
  by_cases hB : B = []
  · subst hB
    decide
  · intro p hp
    left
    simp only [NewStudioWithBase, hB, ne_eq, not_false_eq_true, if_true, List.mem_cons,
      List.mem_singleton, List.not_mem_nil, or_false] at hp
    rcases hp with e | e | e | e | e | e <;> subst e <;>
      exact List.mem_append_right _ (by decide)

/-- On a layout whose base has no `.`, each of the six directory calls requests the
whole path, with a trailing `/`. -/
theorem dot_free_base_requests (os : OS σ H) (B : GoString) (w : World σ) (hB : '.' ∉ B) :
    ∀ p ∈ [(NewStudioWithBase B).Libs, (NewStudioWithBase B).Src, (NewStudioWithBase B).Test,
        (NewStudioWithBase B).Assets, (NewStudioWithBase B).JniLibs, (NewStudioWithBase B).Res],
      mkDirs os p w = osMkdirAll os (p ++ "/".toList) 0o775 w := by
  intro p hp
  apply mkDirs_no_dot
  by_cases h0 : B = []
  · subst h0
    revert p
    decide
  · simp only [NewStudioWithBase, h0, ne_eq, not_false_eq_true, if_true, List.mem_cons,
      List.mem_singleton, List.not_mem_nil, or_false] at hp
    rcases hp with e | e | e | e | e | e <;> subst e <;>
      simp only [List.mem_append, not_or] <;> exact ⟨hB, by decide⟩

/-- C9: on the layout `NewStudioWithBase B`, none of the six directory-creation calls
of `Studio.mkDirs` returns the error that `mkDirs` makes with `errors.New`, whatever
the state they run in. -/
theorem planned_dirs_never_missing_parent (os : OS σ H) (B : GoString) (w : World σ)
    (t : GoString) :
    (mkDirs os (NewStudioWithBase B).Libs w).1 ≠ some (Error.errorsNew t) ∧
    (mkDirs os (NewStudioWithBase B).Src w).1 ≠ some (Error.errorsNew t) ∧
    (mkDirs os (NewStudioWithBase B).Test w).1 ≠ some (Error.errorsNew t) ∧
    (mkDirs os (NewStudioWithBase B).Assets w).1 ≠ some (Error.errorsNew t) ∧
    (mkDirs os (NewStudioWithBase B).JniLibs w).1 ≠ some (Error.errorsNew t) ∧
    (mkDirs os (NewStudioWithBase B).Res w).1 ≠ some (Error.errorsNew t) := by
  have h := NewStudioWithBase_dirs B
  refine ⟨?_, ?_, ?_, ?_, ?_, ?_⟩ <;> exact mkDirs_err os w _ (h _ (by simp)) t

/-! ## The shape of a run -/

theorem manifest_template :
    ((Template.New "manifest".toList).Parse RAW_MANIFEST).1
      = { name := "manifest".toList,
          Tree := some [Node.text manifestHead, Node.field "Pkg".toList,
            Node.text manifestTail] } := by
  decide

theorem gradle_template :
    ((Template.New "gradle".toList).Parse RAW_GRADLE_BUILD).1
      = { name := "gradle".toList,
          Tree := some [Node.text gradleHead, Node.field "Plugin".toList,
            Node.text gradleTail] } := by
  decide

theorem RAW_MANIFEST_split :
    RAW_MANIFEST = manifestHead ++ "\x7b\x7b.Pkg\x7d\x7d".toList ++ manifestTail := by
  decide

theorem RAW_GRADLE_BUILD_split :
    RAW_GRADLE_BUILD = gradleHead ++ "\x7b\x7b.Plugin\x7d\x7d".toList ++ gradleTail := by
  decide

theorem mkDirs_trace (os : OS σ H) (path : GoString) (w : World σ) :
    ∃ l, l.all Event.isMkdirAll = true ∧ (mkDirs os path w).2.trace = w.trace ++ l := by
  unfold mkDirs
  simp only
  split
  · split
    · exact ⟨[], rfl, by simp⟩
    · obtain ⟨ok, h⟩ := osMkdirAll_trace os w (path.take (LastIndex path "/".toList).toNat) 0o775
      exact ⟨_, by simp [Event.isMkdirAll], h⟩
  · obtain ⟨ok, h⟩ := osMkdirAll_trace os w (path ++ "/".toList) 0o775
    exact ⟨_, by simp [Event.isMkdirAll], h⟩

/-- The two results of `os.Create`. -/
theorem osCreate_cases (os : OS σ H) (a : Artifact) (name : GoString) (w : World σ) :
    (∃ e w1, osCreate os a name w = (Except.error (Error.pathError e), w1) ∧
      w1.trace = w.trace ++ [Event.create a name false]) ∨
    (∃ fd w1, osCreate os a name w = (Except.ok { artifact := a, fd := fd }, w1) ∧
      w1.trace = w.trace ++ [Event.create a name true]) := by
  unfold osCreate
  split
  · exact Or.inr ⟨_, _, rfl, rfl⟩
  · exact Or.inl ⟨_, _, rfl, rfl⟩

/-- The two results of a write. -/
theorem Write_cases (os : OS σ H) (f : File H) (data : GoString) (w : World σ) :
    (∃ e w1, File.Write os f data w = (some (Error.pathError e), w1) ∧
      w1.trace = w.trace ++ [Event.write f.artifact data false]) ∨
    (∃ w1, File.Write os f data w = (none, w1) ∧
      w1.trace = w.trace ++ [Event.write f.artifact data true]) := by
  unfold File.Write
  split
  · exact Or.inr ⟨_, rfl, rfl⟩
  · exact Or.inl ⟨_, _, rfl, rfl⟩

theorem Write_trace (os : OS σ H) (f : File H) (data : GoString) (w : World σ) :
    ∃ ok, (File.Write os f data w).2.trace = w.trace ++ [Event.write f.artifact data ok] := by
  rcases Write_cases os f data w with ⟨e, w1, h, ht⟩ | ⟨w1, h, ht⟩
  · exact ⟨false, by rw [h]; exact ht⟩
  · exact ⟨true, by rw [h]; exact ht⟩

theorem runDeferred_trace (os : OS σ H) (deferred : List (File H)) (w : World σ) :
    (runDeferred os deferred w).trace
      = w.trace ++ (deferred.reverse.map (fun f => Event.close f.artifact)) := by
  induction deferred with
  | nil => simp [runDeferred]
  | cons f fs ih =>
    have e : runDeferred os (f :: fs) w = File.Close os f (runDeferred os fs w) := rfl
    rw [e]
    simp [File.Close, ih]

/-- The results of executing a template of the shape text, field, text. -/
theorem Execute_cases (os : OS σ H) (name c0 key v c2 : GoString) (f : File H) (w : World σ) :
    (∃ w1, Template.Execute os { name := name, Tree := some [Node.text c0, Node.field key,
        Node.text c2] } f [(key, v)] w = (none, w1) ∧
      w1.trace = w.trace ++ renderOk f.artifact [c0, v, c2]) ∨
    (∃ (k : Fin 3) (e : GoString) (w1 : World σ),
      Template.Execute os { name := name, Tree := some [Node.text c0, Node.field key,
        Node.text c2] } f [(key, v)] w = (some (Error.pathError e), w1) ∧
      w1.trace = w.trace ++ renderFail f.artifact [c0, v, c2] k) := by
  have hv : mapIndex [(key, v)] key = v := by simp [mapIndex]
  simp only [Template.Execute, walk, hv]
  rcases Write_cases os f c0 w with ⟨e, w1, h, ht⟩ | ⟨w1, h, ht⟩
  · exact Or.inr ⟨0, e, w1, by rw [h], by rw [ht]; simp [renderFail]⟩
  · rw [h]
    simp only
    rcases Write_cases os f v w1 with ⟨e, w2, h2, ht2⟩ | ⟨w2, h2, ht2⟩
    · exact Or.inr ⟨1, e, w2, by rw [h2], by rw [ht2, ht]; simp [renderFail]⟩
    · rw [h2]
      simp only
      rcases Write_cases os f c2 w2 with ⟨e, w3, h3, ht3⟩ | ⟨w3, h3, ht3⟩
      · exact Or.inr ⟨2, e, w3, by rw [h3], by rw [ht3, ht2, ht]; simp [renderFail]⟩
      · exact Or.inl ⟨w3, by rw [h3], by rw [ht3, ht2, ht]; simp [renderOk]⟩

theorem pkgLine_trace (s : Studio) (w : World σ) :
    (if s.Pkg ≠ [] then Println ["Package name is".toList, s.Pkg] w
      else Println ["Warning! use a blank package name".toList] w).trace
      = w.trace ++ [pkgLine s] := by
  unfold pkgLine
  split <;> rfl

/-- Every run is the six directory requests followed by one of the seven endings. -/
theorem Studio_mkDirs_trace (os : OS σ H) (s : Studio) (w : World σ) :
    ∃ l o, l.all Event.isMkdirAll = true ∧
      (s.mkDirs os w).trace = w.trace ++ l ++ fileEvents s o := by
  unfold Studio.mkDirs
  simp only [manifest_template, gradle_template]
  obtain ⟨l1, a1, h1⟩ := mkDirs_trace os s.Libs w
  generalize (mkDirs os s.Libs w).2 = w1 at h1 ⊢
  obtain ⟨l2, a2, h2⟩ := mkDirs_trace os s.Src w1
  generalize (mkDirs os s.Src w1).2 = w2 at h2 ⊢
  obtain ⟨l3, a3, h3⟩ := mkDirs_trace os s.Test w2
  generalize (mkDirs os s.Test w2).2 = w3 at h3 ⊢
  obtain ⟨l4, a4, h4⟩ := mkDirs_trace os s.Assets w3
  generalize (mkDirs os s.Assets w3).2 = w4 at h4 ⊢
  obtain ⟨l5, a5, h5⟩ := mkDirs_trace os s.JniLibs w4
  generalize (mkDirs os s.JniLibs w4).2 = w5 at h5 ⊢
  obtain ⟨l6, a6, h6⟩ := mkDirs_trace os s.Res w5
  generalize (mkDirs os s.Res w5).2 = w6 at h6 ⊢
  have hl : (l1 ++ l2 ++ l3 ++ l4 ++ l5 ++ l6).all Event.isMkdirAll = true := by
    simp only [List.all_append, a1, a2, a3, a4, a5, a6, Bool.and_self]
  have ht : w6.trace = w.trace ++ (l1 ++ l2 ++ l3 ++ l4 ++ l5 ++ l6) := by
    rw [h6, h5, h4, h3, h2, h1]; simp only [List.append_assoc]
  refine Exists.intro (l1 ++ l2 ++ l3 ++ l4 ++ l5 ++ l6) ?_
  rw [← ht]
  suffices hx : ∃ o, _ = w6.trace ++ fileEvents s o by
    obtain ⟨o, ho⟩ := hx
    exact ⟨o, hl, ho⟩
  clear ht hl h1 h2 h3 h4 h5 h6 a1 a2 a3 a4 a5 a6
  -- the manifest
  rcases osCreate_cases os Artifact.manifest s.Manifest w6 with ⟨e, wa, h, hta⟩ | ⟨fm, wa, h, hta⟩
  · rw [h]
    exact ⟨Outcome.manifestCreateFailed e, by simp [Println, hta, fileEvents, Error.message]⟩
  rw [h]
  simp only
  have hb := pkgLine_trace s wa
  generalize (if s.Pkg ≠ [] then Println ["Package name is".toList, s.Pkg] wa
      else Println ["Warning! use a blank package name".toList] wa) = wb at hb ⊢
  rcases Execute_cases os "manifest".toList manifestHead "Pkg".toList s.Pkg manifestTail
    { artifact := Artifact.manifest, fd := fm } wb with ⟨wc, h, htc⟩ | ⟨k, e, wc, h, htc⟩
  swap
  · rw [h]
    exact ⟨Outcome.manifestRenderFailed k e, by
      simp [Println, runDeferred_trace, hta, hb, htc, fileEvents, Error.message, manifestChunks]⟩
  rw [h]
  simp only
  have hmd : wc.trace = w6.trace ++ manifestDone s := by
    simp [hta, hb, htc, manifestDone, manifestChunks]
  clear hta hb htc h
  -- build.gradle
  rcases osCreate_cases os Artifact.gradleBuild s.GradleBuild wc with
    ⟨e, wd, h, htd⟩ | ⟨fg, wd, h, htd⟩
  · rw [h]
    exact ⟨Outcome.gradleCreateFailed e, by
      simp [Println, runDeferred_trace, hmd, htd, fileEvents, Error.message]⟩
  rw [h]
  simp only
  have he : (Println ["use gradle plugin".toList, pluginOf s] wd).trace
      = wd.trace ++ [Event.println ["use gradle plugin".toList, pluginOf s]] := rfl
  simp only [show (if s.IsApp = true then PLUGIN_APPLICATION else PLUGIN_LIBRARY) = pluginOf s
    from rfl]
  generalize Println ["use gradle plugin".toList, pluginOf s] wd = we at he ⊢
  rcases Execute_cases os "gradle".toList gradleHead "Plugin".toList (pluginOf s) gradleTail
    { artifact := Artifact.gradleBuild, fd := fg } we with ⟨wf, h, htf⟩ | ⟨k, e, wf, h, htf⟩
  swap
  · rw [h]
    exact ⟨Outcome.gradleRenderFailed k e, by
      simp [Println, runDeferred_trace, hmd, htd, he, htf, fileEvents, Error.message,
        gradleChunks]⟩
  rw [h]
  simp only
  have hgd : wf.trace = w6.trace ++ gradleDone s := by
    simp [hmd, htd, he, htf, gradleDone, gradleChunks]
  clear hmd htd he htf h
  -- settings.gradle
  rcases osCreate_cases os Artifact.gradleSettings s.GradleSetting wf with
    ⟨e, wg, h, htg⟩ | ⟨fs, wg, h, htg⟩
  · rw [h]
    exact ⟨Outcome.settingsCreateFailed, by
      simp [Println, runDeferred_trace, hgd, htg, fileEvents]⟩
  rw [h]
  simp only
  obtain ⟨ok, hh⟩ := Write_trace os { artifact := Artifact.gradleSettings, fd := fs }
    "\n".toList wg
  generalize (File.Write os { artifact := Artifact.gradleSettings, fd := fs }
    "\n".toList wg).2 = wh at hh ⊢
  have hsd : wh.trace = w6.trace ++ settingsDone s ok := by
    simp [hgd, htg, hh, settingsDone]
  clear hgd htg hh h
  -- proguard-rules.pro
  rcases osCreate_cases os Artifact.proguard s.Proguard wh with
    ⟨e, wi, h, hti⟩ | ⟨fp, wi, h, hti⟩
  · rw [h]
    exact ⟨Outcome.proguardCreateFailed ok e, by
      simp [Println, runDeferred_trace, hsd, hti, fileEvents, Error.message]⟩
  rw [h]
  simp only
  obtain ⟨ok2, hj⟩ := Write_trace os { artifact := Artifact.proguard, fd := fp } RAW_PROGUARD wi
  exact ⟨Outcome.done ok ok2, by
    simp [runDeferred_trace, hsd, hti, hj, fileEvents]⟩

/-! ## Reading the trace of a run -/

theorem written_append (a : Artifact) (t1 t2 : List Event) :
    written a (t1 ++ t2) = written a t1 ++ written a t2 := by
  induction t1 with
  | nil => rfl
  | cons e t ih =>
    cases e with
    | write b data ok =>
      cases ok
      · simpa [written] using ih
      · by_cases hb : b = a <;> simp [written, hb, ih]
    | _ => simpa [written] using ih

theorem written_dirs (a : Artifact) (l : List Event) (h : l.all Event.isMkdirAll = true) :
    written a l = [] := by
  induction l with
  | nil => rfl
  | cons e t ih =>
    simp only [List.all_cons, Bool.and_eq_true] at h
    cases e <;> simp_all [written, Event.isMkdirAll]

theorem createdOk_dirs (a : Artifact) (l : List Event) (h : l.all Event.isMkdirAll = true) :
    createdOk a l = false := by
  induction l with
  | nil => rfl
  | cons e t ih =>
    simp only [List.all_cons, Bool.and_eq_true] at h
    cases e <;> simp_all [createdOk, Event.isMkdirAll]

theorem failedWrite_dirs (a : Artifact) (l : List Event) (h : l.all Event.isMkdirAll = true) :
    failedWrite a l = false := by
  induction l with
  | nil => rfl
  | cons e t ih =>
    simp only [List.all_cons, Bool.and_eq_true] at h
    cases e <;> simp_all [failedWrite, Event.isMkdirAll]

theorem pkgLine_println (s : Studio) : ∃ args, pkgLine s = Event.println args := by
  unfold pkgLine
  split
  · exact ⟨_, rfl⟩
  · exact ⟨_, rfl⟩

/-- What a run writes into the manifest and into build.gradle when the file is
created and no write to it fails. -/
theorem rendered_texts (os : OS σ H) (s : Studio) (fs : σ) :
    (createdOk Artifact.manifest (s.mkDirs os (World.init fs)).trace = true →
      failedWrite Artifact.manifest (s.mkDirs os (World.init fs)).trace = false →
      written Artifact.manifest (s.mkDirs os (World.init fs)).trace
        = manifestHead ++ s.Pkg ++ manifestTail) ∧
    (createdOk Artifact.gradleBuild (s.mkDirs os (World.init fs)).trace = true →
      failedWrite Artifact.gradleBuild (s.mkDirs os (World.init fs)).trace = false →
      written Artifact.gradleBuild (s.mkDirs os (World.init fs)).trace
        = gradleHead ++ pluginOf s ++ gradleTail) := by
  obtain ⟨l, o, hl, ht⟩ := Studio_mkDirs_trace os s (World.init fs)
  obtain ⟨args, hp⟩ := pkgLine_println s
  rw [ht]
  have e1 : (World.init fs).trace = [] := rfl
  simp only [e1, List.nil_append, written_append, createdOk, failedWrite, List.any_append]
  have c1 := createdOk_dirs Artifact.manifest l hl
  have c2 := createdOk_dirs Artifact.gradleBuild l hl
  have f1 := failedWrite_dirs Artifact.manifest l hl
  have f2 := failedWrite_dirs Artifact.gradleBuild l hl
  simp only [createdOk, failedWrite] at c1 c2 f1 f2
  simp only [c1, c2, f1, f2, written_dirs _ l hl, Bool.false_or, List.nil_append]
  cases o with
  | manifestRenderFailed k e =>
    fin_cases k <;>
      simp [fileEvents, renderFail, manifestChunks, hp, written]
  | gradleRenderFailed k e =>
    fin_cases k <;>
      simp [fileEvents, manifestDone, renderOk, renderFail, manifestChunks, gradleChunks, hp,
        written]
  | proguardCreateFailed b e =>
    cases b <;>
      simp [fileEvents, settingsDone, gradleDone, manifestDone, renderOk, manifestChunks,
        gradleChunks, hp, written]
  | done b1 b2 =>
    cases b1 <;> cases b2 <;>
      simp [fileEvents, settingsDone, gradleDone, manifestDone, renderOk, manifestChunks,
        gradleChunks, hp, written]
  | _ =>
    simp [fileEvents, settingsDone, gradleDone, manifestDone, renderOk, manifestChunks,
      gradleChunks, hp, written]

theorem replaceAll_RAW_MANIFEST (p : GoString) :
    replaceAll "\x7b\x7b.Pkg\x7d\x7d".toList p 0 RAW_MANIFEST = manifestHead ++ p ++ manifestTail := by
  rfl

theorem replaceAll_RAW_GRADLE_BUILD (p : GoString) :
    replaceAll "\x7b\x7b.Plugin\x7d\x7d".toList p 0 RAW_GRADLE_BUILD
      = gradleHead ++ p ++ gradleTail := by
  rfl

theorem package_attribute_inside (p : GoString) :
    ("package=\"".toList ++ p ++ "\"".toList) <:+: (manifestHead ++ p ++ manifestTail) := by
  refine ⟨manifestHead.take 102, manifestTail.drop 1, ?_⟩
  have h1 : manifestHead = manifestHead.take 102 ++ "package=\"".toList := by decide
  have h2 : manifestTail = "\"".toList ++ manifestTail.drop 1 := by decide
  conv_rhs => rw [h1, h2]
  simp only [List.append_assoc]

theorem plugin_line_inside (p : GoString) :
    ("\napply plugin: \x27".toList ++ p ++ "\x27\n".toList)
      <:+: (gradleHead ++ p ++ gradleTail) := by
  refine ⟨[], gradleTail.drop 2, ?_⟩
  have h1 : gradleHead = "\napply plugin: \x27".toList := by decide
  have h2 : gradleTail = "\x27\n".toList ++ gradleTail.drop 2 := by decide
  conv_rhs => rw [h1, h2]
  simp only [List.append_assoc, List.nil_append]

/-- C7: when the manifest file is created and no write to it fails, the text
`Studio.mkDirs` writes into it is `RAW_MANIFEST` with `{{.Pkg}}` replaced by the
package name as it is, so it holds `package="<Pkg>"`; this for every package name. -/
theorem manifest_is_template_with_package (os : OS σ H) (s : Studio) (fs : σ)
    (hc : createdOk Artifact.manifest (s.mkDirs os (World.init fs)).trace = true)
    (hw : failedWrite Artifact.manifest (s.mkDirs os (World.init fs)).trace = false) :
    written Artifact.manifest (s.mkDirs os (World.init fs)).trace
      = replaceAll "\x7b\x7b.Pkg\x7d\x7d".toList s.Pkg 0 RAW_MANIFEST ∧
    ("package=\"".toList ++ s.Pkg ++ "\"".toList)
      <:+: written Artifact.manifest (s.mkDirs os (World.init fs)).trace := by
  have h := (rendered_texts os s fs).1 hc hw
  rw [h]
  exact ⟨(replaceAll_RAW_MANIFEST s.Pkg).symm, package_attribute_inside s.Pkg⟩

/-- The run under `myproj` with package `com.example.app` on the empty file system. -/
theorem manifest_is_template_with_package_witness :
    written Artifact.manifest (libraryStudio.mkDirs fsOS (World.init [])).trace
      = replaceAll "\x7b\x7b.Pkg\x7d\x7d".toList libraryStudio.Pkg 0 RAW_MANIFEST ∧
    ("package=\"".toList ++ libraryStudio.Pkg ++ "\"".toList)
      <:+: written Artifact.manifest (libraryStudio.mkDirs fsOS (World.init [])).trace :=
  manifest_is_template_with_package fsOS libraryStudio [] (by decide) (by decide)

/-- C6: when build.gradle is created and no write to it fails, the text
`Studio.mkDirs` writes into it is `RAW_GRADLE_BUILD` with `{{.Plugin}}` replaced by
the plugin identifier, `com.android.application` when `IsApp` is set and
`com.android.library` otherwise, so it holds the matching `apply plugin:` line. -/
theorem gradle_is_template_with_plugin (os : OS σ H) (s : Studio) (fs : σ)
    (hc : createdOk Artifact.gradleBuild (s.mkDirs os (World.init fs)).trace = true)
    (hw : failedWrite Artifact.gradleBuild (s.mkDirs os (World.init fs)).trace = false) :
    written Artifact.gradleBuild (s.mkDirs os (World.init fs)).trace
      = replaceAll "\x7b\x7b.Plugin\x7d\x7d".toList
          (if s.IsApp then PLUGIN_APPLICATION else PLUGIN_LIBRARY) 0 RAW_GRADLE_BUILD ∧
    (if s.IsApp then "\napply plugin: \x27com.android.application\x27\n".toList
      else "\napply plugin: \x27com.android.library\x27\n".toList)
      <:+: written Artifact.gradleBuild (s.mkDirs os (World.init fs)).trace := by
  have h := (rendered_texts os s fs).2 hc hw
  rw [h]
  refine ⟨(replaceAll_RAW_GRADLE_BUILD (pluginOf s)).symm, ?_⟩
  unfold pluginOf
  cases s.IsApp
  · exact plugin_line_inside PLUGIN_LIBRARY
  · exact plugin_line_inside PLUGIN_APPLICATION

/-- The run in the working directory with `-app` set, on the empty file system. -/
theorem gradle_is_template_with_plugin_witness :
    written Artifact.gradleBuild (appStudio.mkDirs fsOS (World.init [])).trace
      = replaceAll "\x7b\x7b.Plugin\x7d\x7d".toList
          (if appStudio.IsApp then PLUGIN_APPLICATION else PLUGIN_LIBRARY) 0 RAW_GRADLE_BUILD ∧
    (if appStudio.IsApp then "\napply plugin: \x27com.android.application\x27\n".toList
      else "\napply plugin: \x27com.android.library\x27\n".toList)
      <:+: written Artifact.gradleBuild (appStudio.mkDirs fsOS (World.init [])).trace :=
  gradle_is_template_with_plugin fsOS appStudio [] (by decide) (by decide)

/-! ## Failures and file handles -/

theorem fatalIsLast_dirs_append (l r : List Event) (h : l.all Event.isMkdirAll = true) :
    fatalIsLast (l ++ r) = fatalIsLast r := by
  induction l with
  | nil => rfl
  | cons e t ih =>
    simp only [List.all_cons, Bool.and_eq_true] at h
    cases e <;> simp_all [fatalIsLast, Event.isFatal, Event.isMkdirAll]

theorem fatalIsLast_split (t pre post : List Event) (e : Event) (h : fatalIsLast t = true)
    (hsplit : t = pre ++ e :: post) (hfatal : e.isFatal = true) :
    post.any Event.isAttempt = false := by
  induction pre generalizing t with
  | nil =>
    subst hsplit
    simp only [List.nil_append, fatalIsLast, hfatal, Bool.not_true, Bool.false_or,
      Bool.and_eq_true, Bool.not_eq_true'] at h
    exact h.1
  | cons x xs ih =>
    subst hsplit
    simp only [List.cons_append, fatalIsLast, Bool.and_eq_true] at h
    exact ih _ h.2 rfl

theorem fatalIsLast_fileEvents (s : Studio) (o : Outcome) :
    fatalIsLast (fileEvents s o) = true := by
  obtain ⟨args, hp⟩ := pkgLine_println s
  cases o with
  | manifestRenderFailed k e =>
    fin_cases k <;>
      simp [fileEvents, renderFail, manifestChunks, hp, fatalIsLast, Event.isFatal,
        Event.isAttempt]
  | gradleRenderFailed k e =>
    fin_cases k <;>
      simp [fileEvents, manifestDone, renderOk, renderFail, manifestChunks, gradleChunks, hp,
        fatalIsLast, Event.isFatal, Event.isAttempt]
  | proguardCreateFailed b e =>
    cases b <;>
      simp [fileEvents, settingsDone, gradleDone, manifestDone, renderOk, manifestChunks,
        gradleChunks, hp, fatalIsLast, Event.isFatal, Event.isAttempt]
  | done b1 b2 =>
    cases b1 <;> cases b2 <;>
      simp [fileEvents, settingsDone, gradleDone, manifestDone, renderOk, manifestChunks,
        gradleChunks, hp, fatalIsLast, Event.isFatal, Event.isAttempt]
  | _ =>
    simp [fileEvents, settingsDone, gradleDone, manifestDone, renderOk, manifestChunks,
      gradleChunks, hp, fatalIsLast, Event.isFatal, Event.isAttempt]

theorem reportFollows_dirs_append (l r : List Event) (h : l.all Event.isMkdirAll = true) :
    reportFollows (l ++ r) = reportFollows r := by
  induction l with
  | nil => rfl
  | cons e t ih =>
    simp only [List.all_cons, Bool.and_eq_true] at h
    cases e <;> simp_all [reportFollows, Event.isFatal, Event.isMkdirAll]

theorem reportFollows_split (t pre post : List Event) (e : Event)
    (h : reportFollows t = true) (hsplit : t = pre ++ e :: post) (hfatal : e.isFatal = true) :
    isReportThenCloses (failureReport e) post = true := by
  induction pre generalizing t with
  | nil =>
    subst hsplit
    simp only [List.nil_append, reportFollows, hfatal, Bool.not_true, Bool.false_or,
      Bool.and_eq_true] at h
    exact h.1
  | cons x xs ih =>
    subst hsplit
    simp only [List.cons_append, reportFollows, Bool.and_eq_true] at h
    exact ih _ h.2 rfl

theorem isReportThenCloses_shape (m : GoString) (post : List Event)
    (h : isReportThenCloses m post = true) :
    ∃ rest closes, post = Event.println (m :: rest) :: closes ∧
      closes.all Event.isClose = true := by
  cases post with
  | nil => simp [isReportThenCloses] at h
  | cons e closes =>
    cases e with
    | println args =>
      cases args with
      | nil => simp [isReportThenCloses] at h
      | cons x rest =>
        simp only [isReportThenCloses, Bool.and_eq_true, beq_iff_eq] at h
        exact ⟨rest, closes, by rw [h.1], h.2⟩
    | _ => simp [isReportThenCloses] at h

theorem reportFollows_fileEvents (s : Studio) (o : Outcome) :
    reportFollows (fileEvents s o) = true := by
  obtain ⟨args, hp⟩ := pkgLine_println s
  cases o with
  | manifestRenderFailed k e =>
    fin_cases k <;>
      simp [fileEvents, renderFail, manifestChunks, hp, reportFollows, Event.isFatal,
        isReportThenCloses, failureReport, Event.isClose]
  | gradleRenderFailed k e =>
    fin_cases k <;>
      simp [fileEvents, manifestDone, renderOk, renderFail, manifestChunks, gradleChunks, hp,
        reportFollows, Event.isFatal, isReportThenCloses, failureReport, Event.isClose]
  | proguardCreateFailed b e =>
    cases b <;>
      simp [fileEvents, settingsDone, gradleDone, manifestDone, renderOk, manifestChunks,
        gradleChunks, hp, reportFollows, Event.isFatal, isReportThenCloses, failureReport,
        Event.isClose]
  | done b1 b2 =>
    cases b1 <;> cases b2 <;>
      simp [fileEvents, settingsDone, gradleDone, manifestDone, renderOk, manifestChunks,
        gradleChunks, hp, reportFollows, Event.isFatal, isReportThenCloses, failureReport,
        Event.isClose]
  | _ =>
    simp [fileEvents, settingsDone, gradleDone, manifestDone, renderOk, manifestChunks,
      gradleChunks, hp, reportFollows, Event.isFatal, isReportThenCloses, failureReport,
      Event.isClose]

/-- C8, as the code has it: once creating one of the four files fails, or a write
fails while the manifest or build.gradle template is rendered, the next action of
`Studio.mkDirs` is the `fmt.Println` that reports this failure, and after it only
deferred closes follow: nothing after the failure creates or writes a file, so no
later artifact is attempted. -/
theorem failure_ends_the_run (os : OS σ H) (s : Studio) (fs : σ) (pre post : List Event)
    (e : Event) (hsplit : (s.mkDirs os (World.init fs)).trace = pre ++ e :: post)
    (hfatal : e.isFatal = true) :
    post.any Event.isAttempt = false ∧
    ∃ rest closes, post = Event.println (failureReport e :: rest) :: closes ∧
      closes.all Event.isClose = true := by
  obtain ⟨l, o, hl, ht⟩ := Studio_mkDirs_trace os s (World.init fs)
  have e1 : (World.init fs).trace = [] := rfl
  have h : fatalIsLast (s.mkDirs os (World.init fs)).trace = true := by
    rw [ht, e1, List.nil_append, fatalIsLast_dirs_append l _ hl]
    exact fatalIsLast_fileEvents s o
  have h2 : reportFollows (s.mkDirs os (World.init fs)).trace = true := by
    rw [ht, e1, List.nil_append, reportFollows_dirs_append l _ hl]
    exact reportFollows_fileEvents s o
  exact ⟨fatalIsLast_split _ pre post e h hsplit hfatal,
    isReportThenCloses_shape _ post (reportFollows_split _ pre post e h2 hsplit hfatal)⟩

/-- The run in the working directory when `src/main/AndroidManifest.xml` is a
directory: after the failed create only the report is left. -/
theorem failure_ends_the_run_witness :
    [Event.println ["open manifest file error".toList, "is a directory".toList]].any
      Event.isAttempt = false ∧
    ∃ rest closes,
      [Event.println ["open manifest file error".toList, "is a directory".toList]]
        = Event.println
            (failureReport (Event.create Artifact.manifest
              "src/main/AndroidManifest.xml".toList false) :: rest) :: closes ∧
      closes.all Event.isClose = true :=
  failure_ends_the_run fsOS { NewStudioWithBase [] with Pkg := "com.test".toList }
    manifestIsDirFS
    [Event.mkdirAll "libs/".toList 0o775 true,
      Event.mkdirAll "src/main/java/".toList 0o775 true,
      Event.mkdirAll "src/androidTest/java/".toList 0o775 true,
      Event.mkdirAll "src/main/assets/".toList 0o775 true,
      Event.mkdirAll "src/main/jniLibs/".toList 0o775 true,
      Event.mkdirAll "src/main/res/".toList 0o775 true]
    [Event.println ["open manifest file error".toList, "is a directory".toList]]
    (Event.create Artifact.manifest "src/main/AndroidManifest.xml".toList false)
    (by decide) (by decide)

/-- C8 fails as stated: in the working directory, with `src/main/AndroidManifest.xml`
a directory, creating the manifest fails and none of build.gradle, settings.gradle
and proguard-rules.pro is attempted or exists afterwards. -/
theorem manifest_failure_skips_later_files :
    Event.create Artifact.manifest "src/main/AndroidManifest.xml".toList false
      ∈ blockedManifestRun.trace ∧
    attempted Artifact.gradleBuild blockedManifestRun.trace = false ∧
    attempted Artifact.gradleSettings blockedManifestRun.trace = false ∧
    attempted Artifact.proguard blockedManifestRun.trace = false ∧
    blockedManifestRun.fs.readFile "build.gradle".toList = none ∧
    blockedManifestRun.fs.readFile "settings.gradle".toList = none ∧
    blockedManifestRun.fs.readFile "proguard-rules.pro".toList = none := by
  refine ⟨by decide, by decide, by decide, by decide, by decide, by decide, by decide⟩

theorem opened_append (t1 t2 : List Event) : opened (t1 ++ t2) = opened t1 ++ opened t2 := by
  induction t1 with
  | nil => rfl
  | cons e t ih =>
    cases e with
    | create a name ok => cases ok <;> simp [opened, ih]
    | _ => simpa [opened] using ih

theorem opened_dirs (l : List Event) (h : l.all Event.isMkdirAll = true) : opened l = [] := by
  induction l with
  | nil => rfl
  | cons e t ih =>
    simp only [List.all_cons, Bool.and_eq_true] at h
    cases e <;> simp_all [opened, Event.isMkdirAll]

theorem any_isClose_dirs (l : List Event) (h : l.all Event.isMkdirAll = true) :
    l.any Event.isClose = false := by
  induction l with
  | nil => rfl
  | cons e t ih =>
    simp only [List.all_cons, Bool.and_eq_true] at h
    cases e <;> simp_all [Event.isClose, Event.isMkdirAll]

/-- Each ending is a body without any close, then the closes of the files the body
opened, last opened first. -/
theorem fileEvents_closes (s : Studio) (o : Outcome) :
    ∃ body, fileEvents s o = body ++ (opened body).reverse.map Event.close ∧
      body.any Event.isClose = false := by
  obtain ⟨args, hp⟩ := pkgLine_println s
  cases o with
  | manifestCreateFailed e =>
    exact ⟨fileEvents s (Outcome.manifestCreateFailed e), by
      simp [fileEvents, opened], by simp [fileEvents, Event.isClose]⟩
  | manifestRenderFailed k e =>
    refine ⟨[Event.create Artifact.manifest s.Manifest true, pkgLine s]
      ++ renderFail Artifact.manifest (manifestChunks s) k
      ++ [Event.println ["writer manifest file by template error".toList, e]], ?_, ?_⟩ <;>
    fin_cases k <;>
      simp [fileEvents, renderFail, manifestChunks, hp, opened, Event.isClose]
  | gradleCreateFailed e =>
    refine ⟨manifestDone s
      ++ [Event.create Artifact.gradleBuild s.GradleBuild false,
          Event.println ["open build.gradle file error".toList, e]], ?_, ?_⟩ <;>
      simp [fileEvents, manifestDone, renderOk, manifestChunks, hp, opened, Event.isClose]
  | gradleRenderFailed k e =>
    refine ⟨manifestDone s
      ++ [Event.create Artifact.gradleBuild s.GradleBuild true,
          Event.println ["use gradle plugin".toList, pluginOf s]]
      ++ renderFail Artifact.gradleBuild (gradleChunks s) k
      ++ [Event.println ["writer build.gradle fail.".toList, e]], ?_, ?_⟩ <;>
    fin_cases k <;>
      simp [fileEvents, manifestDone, renderOk, renderFail, manifestChunks, gradleChunks, hp,
        opened, Event.isClose]
  | settingsCreateFailed =>
    refine ⟨gradleDone s
      ++ [Event.create Artifact.gradleSettings s.GradleSetting false,
          Event.println ["open settings.gradle fail".toList]], ?_, ?_⟩ <;>
      simp [fileEvents, gradleDone, manifestDone, renderOk, manifestChunks, gradleChunks, hp,
        opened, Event.isClose]
  | proguardCreateFailed b e =>
    refine ⟨settingsDone s b
      ++ [Event.create Artifact.proguard s.Proguard false,
          Event.println ["open proguard error.".toList, e]], ?_, ?_⟩ <;>
    cases b <;>
      simp [fileEvents, settingsDone, gradleDone, manifestDone, renderOk, manifestChunks,
        gradleChunks, hp, opened, Event.isClose]
  | done b1 b2 =>
    refine ⟨settingsDone s b1
      ++ [Event.create Artifact.proguard s.Proguard true,
          Event.write Artifact.proguard RAW_PROGUARD b2], ?_, ?_⟩ <;>
    cases b1 <;> cases b2 <;>
      simp [fileEvents, settingsDone, gradleDone, manifestDone, renderOk, manifestChunks,
        gradleChunks, hp, opened, Event.isClose]

/-- C10, as the code has it: the closes are deferred. Every run is a body in which
no file is closed, followed at return by the closes of exactly the files the body
opened, the last opened first. -/
theorem handles_are_closed_at_return (os : OS σ H) (s : Studio) (fs : σ) :
    ∃ body, (s.mkDirs os (World.init fs)).trace
        = body ++ (opened body).reverse.map Event.close ∧
      body.any Event.isClose = false := by
  obtain ⟨l, o, hl, ht⟩ := Studio_mkDirs_trace os s (World.init fs)
  obtain ⟨body, hb, hc⟩ := fileEvents_closes s o
  refine ⟨l ++ body, ?_, ?_⟩
  · have e1 : (World.init fs).trace = [] := rfl
    rw [ht, e1, List.nil_append, hb, opened_append, opened_dirs l hl, List.nil_append,
      List.append_assoc]
  · rw [List.any_append, any_isClose_dirs l hl, hc]
    rfl

/-- C10 fails as stated: in the scenario run the manifest handle is still open when
build.gradle is created, and all four handles are open together before the return. -/
theorem two_handles_open_together :
    openAfter (scenarioRun.trace.take 12) = [Artifact.manifest, Artifact.gradleBuild] ∧
    openAfter (scenarioRun.trace.take 20)
      = [Artifact.manifest, Artifact.gradleBuild, Artifact.gradleSettings, Artifact.proguard] ∧
    openAfter scenarioRun.trace = [] ∧
    ¬ (∀ n, (openAfter (scenarioRun.trace.take n)).length ≤ 1) := by
  refine ⟨by decide, by decide, by decide, fun h => absurd (h 12) (by decide)⟩

/-! ## Whole runs on the concrete file system -/

/-- The specification's scenario (base `myproj`, package `com.test`, library, empty
file system) produces the whole layout. -/
theorem scenario_layout :
    scenarioRun.fs.isDir "myproj/libs".toList = true ∧
    scenarioRun.fs.isDir "myproj/src/main/java".toList = true ∧
    scenarioRun.fs.isDir "myproj/src/androidTest/java".toList = true ∧
    scenarioRun.fs.isDir "myproj/src/main/assets".toList = true ∧
    scenarioRun.fs.isDir "myproj/src/main/jniLibs".toList = true ∧
    scenarioRun.fs.isDir "myproj/src/main/res".toList = true ∧
    scenarioRun.fs.readFile "myproj/src/main/AndroidManifest.xml".toList
      = some (replaceAll "\x7b\x7b.Pkg\x7d\x7d".toList "com.test".toList 0 RAW_MANIFEST) ∧
    scenarioRun.fs.readFile "myproj/build.gradle".toList
      = some (replaceAll "\x7b\x7b.Plugin\x7d\x7d".toList PLUGIN_LIBRARY 0 RAW_GRADLE_BUILD) ∧
    scenarioRun.fs.readFile "myproj/settings.gradle".toList = some ['\n'] ∧
    scenarioRun.fs.readFile "myproj/proguard-rules.pro".toList = some RAW_PROGUARD := by
  refine ⟨by decide, by decide, by decide, by decide, by decide, by decide, by decide,
    by decide, by decide, by decide⟩

/-- C1, at base `my.proj`: on the empty file system the run with package `com.test`
makes none of the six directories. Its only directory requests are `my.proj`,
`my.proj/src/main` and `my.proj/src/androidTest`; the four files are written. -/
theorem dotted_base_leaves_directories_out :
    dottedBaseRun.fs.isDir "my.proj/libs".toList = false ∧
    dottedBaseRun.fs.isDir "my.proj/src/main/java".toList = false ∧
    dottedBaseRun.fs.isDir "my.proj/src/androidTest/java".toList = false ∧
    dottedBaseRun.fs.isDir "my.proj/src/main/assets".toList = false ∧
    dottedBaseRun.fs.isDir "my.proj/src/main/jniLibs".toList = false ∧
    dottedBaseRun.fs.isDir "my.proj/src/main/res".toList = false ∧
    dottedBaseRun.trace.filter Event.isMkdirAll
      = [Event.mkdirAll "my.proj".toList 0o775 true,
         Event.mkdirAll "my.proj/src/main".toList 0o775 true,
         Event.mkdirAll "my.proj/src/androidTest".toList 0o775 true,
         Event.mkdirAll "my.proj/src/main".toList 0o775 true,
         Event.mkdirAll "my.proj/src/main".toList 0o775 true,
         Event.mkdirAll "my.proj/src/main".toList 0o775 true] ∧
    dottedBaseRun.fs.readFile "my.proj/src/main/AndroidManifest.xml".toList
      = some (replaceAll "\x7b\x7b.Pkg\x7d\x7d".toList "com.test".toList 0 RAW_MANIFEST) ∧
    dottedBaseRun.fs.readFile "my.proj/settings.gradle".toList = some ['\n'] ∧
    dottedBaseRun.fs.readFile "my.proj/proguard-rules.pro".toList = some RAW_PROGUARD := by
  refine ⟨by decide, by decide, by decide, by decide, by decide, by decide, by decide,
    by decide, by decide, by decide⟩

end StudioDir
